import Mathlib

/-!
# Verification of the `yuv` NV12 image library

Shallow embedding of `src/lib.rs`: a `YUV` color value (three byte channels),
an `NV12Image` surface over a flat byte buffer (full-resolution luma plane
followed by an interleaved half-resolution chroma plane), and the
half-resolution wrapper `NV12Image2`.

Modelling conventions:
* Rust `u8` / `u32` / `usize` values are embedded as `Nat`.  All index
  arithmetic is exact (no wraparound); this is faithful whenever
  `width * height * 3 / 2 < 2^32`, i.e. whenever the buffer is addressable
  with the source's `u32` arithmetic.
* A Rust `panic!` (bounds violation, out-of-range buffer index, `todo!()`)
  is embedded as `none`: `get_pixel` returns `Option YUV`, `put_pixel`
  returns `Option NV12Image` (the mutated surface on success).
* The `f32` arithmetic of `YUV::rgb` is embedded exactly over `Int` scaled
  by 100 (the formulas only divide by 100), followed by the saturating
  truncation of Rust's `as u8` cast.  For every byte input the intermediate
  values are exact multiples of 1/100, which `f32` reproduces to within
  `2^-10` of the real value, and none of the values reached by the constants
  examined below lies that close to a truncation boundary, so the integer
  model and the `f32` computation truncate identically there.
-/

/-- A YUV color value, `pub struct YUV(pub [u8; 3])`: channel 0 is luma,
channels 1 and 2 are the chroma pair. -/
structure YUV where
  y : Nat
  u : Nat
  v : Nat
deriving DecidableEq, Repr

/-- `pub const BLACK: YUV = YUV([0, 0x80, 0x80]);` -/
def BLACK : YUV := ⟨0, 0x80, 0x80⟩

/-- `pub const WHITE: YUV = YUV([0xff, 0x80, 0x80]);` -/
def WHITE : YUV := ⟨0xff, 0x80, 0x80⟩

/-- `pub const RED: YUV = YUV([0x4c, 0x55, 0xff]);` -/
def RED : YUV := ⟨0x4c, 0x55, 0xff⟩

/-- `pub const GREEN: YUV = YUV([0, 0, 0]);` -/
def GREEN : YUV := ⟨0, 0, 0⟩

/-- `pub const CYAN: YUV = YUV([0xb3, 0xab, 0x00]);` -/
def CYAN : YUV := ⟨0xb3, 0xab, 0x00⟩

/-- `pub const BLUE: YUV = YUV([0x1d, 0xff, 0x6b]);` -/
def BLUE : YUV := ⟨0x1d, 0xff, 0x6b⟩

/-- `pub const YELLOW: YUV = YUV([0xe2, 0x00, 0x95]);` -/
def YELLOW : YUV := ⟨0xe2, 0x00, 0x95⟩

/-- Rust's saturating `as u8` cast applied to a value given in hundredths:
negative values clamp to 0, values of 256 or more clamp to 255, otherwise
the value is truncated toward zero. -/
def hundredthsToU8 (q : Int) : Nat :=
  if q < 0 then 0 else min 255 (q.toNat / 100)

/-- `YUV::rgb`: `r = y + (140*(v-128))/100`, `g = y - (34*(u-128))/100 -
(71*(v-128))/100`, `b = y + (177*(u-128))/100`, each cast with `as u8`.
Embedded exactly in hundredths over `Int` (see the module docstring). -/
def YUV.rgb (c : YUV) : Nat × Nat × Nat :=
  let y : Int := c.y
  let u : Int := c.u
  let v : Int := c.v
  let r := 100 * y + 140 * (v - 128)
  let g := 100 * y - 34 * (u - 128) - 71 * (v - 128)
  let b := 100 * y + 177 * (u - 128)
  (hundredthsToU8 r, hundredthsToU8 g, hundredthsToU8 b)

/-- `Pixel::blend` for `YUV`: `*self = *other` — the destination is replaced
by the source outright. -/
def YUV.blend (_dst src : YUV) : YUV := src

/-- Channel-wise closeness of two RGB triples, up to truncation error of at
most 2 per channel. -/
def rgbClose (a b : Nat × Nat × Nat) : Bool :=
  max a.1 b.1 - min a.1 b.1 ≤ 2 &&
  max a.2.1 b.2.1 - min a.2.1 b.2.1 ≤ 2 &&
  max a.2.2 b.2.2 - min a.2.2 b.2.2 ≤ 2

/-- `pub struct NV12Image<T> { data: T, width: u32, height: u32,
gray_size: u32 }`, with the backing container `T` embedded as `Array Nat`
of byte values. -/
structure NV12Image where
  data : Array Nat
  width : Nat
  height : Nat
  gray_size : Nat
deriving DecidableEq, Repr

namespace NV12Image

/-- `NV12Image::from(data, width, height)`: stores the buffer and dimensions
unconditionally and derives `gray_size = width * height`.  There is no
length validation in the source. -/
def fromData (data : Array Nat) (width height : Nat) : NV12Image :=
  { data := data, width := width, height := height,
    gray_size := width * height }

/-- `NV12Image::check_bounds`: returns `true` iff the source panics, i.e.
iff `x >= width || y >= height`. -/
def check_bounds (img : NV12Image) (x y : Nat) : Bool :=
  img.width ≤ x || img.height ≤ y

/-- `NV12Image::to_zero_or_even(n) = n - n % 2`. -/
def to_zero_or_even (n : Nat) : Nat := n - n % 2

/-- `NV12Image::pixel_indices`: `offset = y*width`, luma index `offset + x`,
chroma indices `gray_size + offset/2 + x` and the following byte. -/
def pixel_indices (img : NV12Image) (x y : Nat) : Nat × Nat × Nat :=
  let offset := y * img.width
  let y_index := offset + x
  let uv_index := img.gray_size + offset / 2 + x
  (y_index, uv_index, uv_index + 1)

/-- A single indexed buffer read, `self.data[i]`: `none` models the panic of
an out-of-range index. -/
def readByte (a : Array Nat) (i : Nat) : Option Nat := a[i]?

/-- A single indexed buffer write, `self.data[i] = v`: `none` models the
panic of an out-of-range index. -/
def writeByte (a : Array Nat) (i : Nat) (v : Nat) : Option (Array Nat) :=
  if h : i < a.size then some (a.set ⟨i, h⟩ v) else none

/-- `GenericImageView::dimensions` for `NV12Image`. -/
def dimensions (img : NV12Image) : Nat × Nat := (img.width, img.height)

/-- `GenericImageView::bounds` for `NV12Image`. -/
def bounds (img : NV12Image) : Nat × Nat × Nat × Nat :=
  (0, 0, img.width, img.height)

/-- `GenericImageView::get_pixel` for `NV12Image`: bounds check, snap both
coordinates to even, then read the luma byte and the chroma pair of the
block. -/
def get_pixel (img : NV12Image) (x y : Nat) : Option YUV :=
  if img.check_bounds x y then none
  else
    let x := to_zero_or_even x
    let y := to_zero_or_even y
    let indices := img.pixel_indices x y
    match readByte img.data indices.1, readByte img.data indices.2.1,
        readByte img.data indices.2.2 with
    | some a, some b, some c => some ⟨a, b, c⟩
    | _, _, _ => none

/-- `GenericImage::get_pixel_mut` for `NV12Image` is `todo!()` in the
source: it panics unconditionally, before looking at its arguments. -/
def get_pixel_mut (_img : NV12Image) (_x _y : Nat) : Option YUV := none

/-- `GenericImage::put_pixel` for `NV12Image`: bounds check, snap both
coordinates to even, then write the four luma bytes of the 2×2 block and
the shared chroma pair, in the source's write order. -/
def put_pixel (img : NV12Image) (x y : Nat) (pixel : YUV) :
    Option NV12Image :=
  if img.check_bounds x y then none
  else
    let x := to_zero_or_even x
    let y := to_zero_or_even y
    let indices := img.pixel_indices x y
    do
      let d0 ← writeByte img.data indices.1 pixel.y
      let d1 ← writeByte d0 (indices.1 + 1) pixel.y
      let d2 ← writeByte d1 (indices.1 + img.width) pixel.y
      let d3 ← writeByte d2 (indices.1 + img.width + 1) pixel.y
      let d4 ← writeByte d3 indices.2.1 pixel.u
      let d5 ← writeByte d4 indices.2.2 pixel.v
      some { img with data := d5 }

/-- `GenericImage::blend_pixel` for `NV12Image`: delegates to `put_pixel`. -/
def blend_pixel (img : NV12Image) (x y : Nat) (pixel : YUV) :
    Option NV12Image :=
  img.put_pixel x y pixel

end NV12Image

/-- `pub struct NV12Image2<T>(pub NV12Image<T>)`: the half-resolution view
wrapping a surface. -/
structure NV12Image2 where
  base : NV12Image
deriving DecidableEq, Repr

namespace NV12Image2

/-- `GenericImageView::dimensions` for `NV12Image2`: halved. -/
def dimensions (img : NV12Image2) : Nat × Nat :=
  (img.base.width / 2, img.base.height / 2)

/-- `GenericImageView::bounds` for `NV12Image2`: halved. -/
def bounds (img : NV12Image2) : Nat × Nat × Nat × Nat :=
  (0, 0, img.base.width / 2, img.base.height / 2)

/-- `GenericImageView::get_pixel` for `NV12Image2`:
`self.0.get_pixel(x * 2, y * 2)`. -/
def get_pixel (img : NV12Image2) (x y : Nat) : Option YUV :=
  img.base.get_pixel (x * 2) (y * 2)

/-- `GenericImage::get_pixel_mut` for `NV12Image2` is `todo!()` in the
source: it panics unconditionally, before looking at its arguments. -/
def get_pixel_mut (_img : NV12Image2) (_x _y : Nat) : Option YUV := none

/-- `GenericImage::put_pixel` for `NV12Image2`:
`self.0.put_pixel(x * 2, y * 2, pixel)`. -/
def put_pixel (img : NV12Image2) (x y : Nat) (pixel : YUV) :
    Option NV12Image2 :=
  (img.base.put_pixel (x * 2) (y * 2) pixel).map fun b => ⟨b⟩

/-- `GenericImage::blend_pixel` for `NV12Image2`: delegates to its own
`put_pixel`. -/
def blend_pixel (img : NV12Image2) (x y : Nat) (pixel : YUV) :
    Option NV12Image2 :=
  img.put_pixel x y pixel

end NV12Image2

/-! ## Basic facts about the embedding -/

@[simp] lemma NV12Image.fromData_data (d : Array Nat) (w h : Nat) :
    (NV12Image.fromData d w h).data = d := rfl

@[simp] lemma NV12Image.fromData_width (d : Array Nat) (w h : Nat) :
    (NV12Image.fromData d w h).width = w := rfl

@[simp] lemma NV12Image.fromData_height (d : Array Nat) (w h : Nat) :
    (NV12Image.fromData d w h).height = h := rfl

@[simp] lemma NV12Image.fromData_gray_size (d : Array Nat) (w h : Nat) :
    (NV12Image.fromData d w h).gray_size = w * h := rfl

/-- Halving an even multiple moves the halving onto the even factor. -/
lemma even_mul_div_two {y w : Nat} (hy : y % 2 = 0) : y * w / 2 = y / 2 * w := by
  obtain ⟨k, rfl⟩ : ∃ k, y = 2 * k := ⟨y / 2, by omega⟩
  rw [Nat.mul_assoc, Nat.mul_div_cancel_left _ (by norm_num),
    Nat.mul_div_cancel_left _ (by norm_num)]

/-- A row-major offset of an in-bounds coordinate is below the plane size. -/
lemma row_major_lt {w h x y : Nat} (hx : x < w) (hy : y < h) :
    y * w + x < w * h := by
  calc y * w + x < y * w + w := by omega
    _ = (y + 1) * w := by ring
    _ ≤ h * w := Nat.mul_le_mul_right w hy
    _ = w * h := Nat.mul_comm h w

/-- Row-major offsets determine the coordinate when the column is in range. -/
lemma row_major_inj {w x1 x2 y1 y2 : Nat} (h1 : x1 < w) (h2 : x2 < w)
    (h : y1 * w + x1 = y2 * w + x2) : y1 = y2 ∧ x1 = x2 := by
  have hw : 0 < w := by omega
  have d1 : (y1 * w + x1) / w = y1 := by
    rw [Nat.mul_comm y1 w, Nat.mul_add_div hw, Nat.div_eq_of_lt h1]
    omega
  have d2 : (y2 * w + x2) / w = y2 := by
    rw [Nat.mul_comm y2 w, Nat.mul_add_div hw, Nat.div_eq_of_lt h2]
    omega
  have hy : y1 = y2 := by rw [← d1, ← d2, h]
  subst hy
  exact ⟨rfl, by omega⟩

/-- All six byte offsets touched by a block write at the 2×2 block of an
in-bounds coordinate lie inside a buffer of NV12 size, and the luma offsets
stay below the chroma plane. -/
lemma block_indices_lt {w h x y s : Nat} (hw : w % 2 = 0) (hh : h % 2 = 0)
    (hx : x < w) (hy : y < h) (hlen : w * h * 3 / 2 ≤ s) :
    (y - y % 2) * w + (x - x % 2) + w + 1 < s ∧
    w * h + (y - y % 2) * w / 2 + (x - x % 2) + 1 < s ∧
    (y - y % 2) * w + (x - x % 2) + w + 1 < w * h := by
  have hwh2 : w * h % 2 = 0 := by rw [Nat.mul_mod, hw]; simp
  have hL : (y - y % 2 + 1) * w + (x - x % 2 + 1) < w * h :=
    row_major_lt (by omega) (by omega)
  have hLassoc : (y - y % 2 + 1) * w + (x - x % 2 + 1)
      = (y - y % 2) * w + (x - x % 2) + w + 1 := by ring
  have huveq : (y - y % 2) * w / 2 = (y - y % 2) / 2 * w :=
    even_mul_div_two (by omega)
  have hhalf : w * h / 2 = h / 2 * w := by
    rw [Nat.mul_comm w h]; exact even_mul_div_two hh
  have hstep : ((y - y % 2) / 2 + 1) * w ≤ h / 2 * w :=
    Nat.mul_le_mul_right w (by omega)
  have hstep2 : ((y - y % 2) / 2 + 1) * w = (y - y % 2) / 2 * w + w := by ring
  refine ⟨by omega, by omega, by omega⟩
/-- `writeByte` succeeds exactly as `Array.setD` when the index is in
range. -/
lemma writeByte_eq_setD {a : Array Nat} {i : Nat} (v : Nat) (h : i < a.size) :
    NV12Image.writeByte a i v = some (a.setD i v) := by
  unfold NV12Image.writeByte Array.setD
  rw [dif_pos h, dif_pos h]

/-- Reading after an in-range `setD`. -/
lemma getElem?_setD_lt (a : Array Nat) (i v : Nat) (h : i < a.size)
    (j : Nat) : (a.setD i v)[j]? = if i = j then some v else a[j]? := by
  unfold Array.setD
  rw [dif_pos h, Array.get?_set]

lemma NV12Image.put_pixel_spec (img : NV12Image) (x y : Nat) (c : YUV)
    (hg : img.gray_size = img.width * img.height)
    (hw : img.width % 2 = 0) (hh : img.height % 2 = 0)
    (hx : x < img.width) (hy : y < img.height)
    (hlen : img.width * img.height * 3 / 2 ≤ img.data.size) :
    ∃ img', img.put_pixel x y c = some img' ∧
      img'.width = img.width ∧ img'.height = img.height ∧
      img'.gray_size = img.gray_size ∧ img'.data.size = img.data.size ∧
      ∀ i : Nat, img'.data[i]? =
        if img.gray_size + (y - y % 2) * img.width / 2 + (x - x % 2) + 1 = i
          then some c.v
        else if img.gray_size + (y - y % 2) * img.width / 2 + (x - x % 2) = i
          then some c.u
        else if (y - y % 2) * img.width + (x - x % 2) + img.width + 1 = i
          then some c.y
        else if (y - y % 2) * img.width + (x - x % 2) + img.width = i
          then some c.y
        else if (y - y % 2) * img.width + (x - x % 2) + 1 = i then some c.y
        else if (y - y % 2) * img.width + (x - x % 2) = i then some c.y
        else img.data[i]? := by
  obtain ⟨hlam, huv1, hluma⟩ := block_indices_lt hw hh hx hy hlen
  have h0 : (y - y % 2) * img.width + (x - x % 2) < img.data.size := by omega
  have h1 : (y - y % 2) * img.width + (x - x % 2) + 1 < img.data.size := by
    omega
  have h2 : (y - y % 2) * img.width + (x - x % 2) + img.width <
      img.data.size := by omega
  have h3 : (y - y % 2) * img.width + (x - x % 2) + img.width + 1 <
      img.data.size := by omega
  have h4 : img.gray_size + (y - y % 2) * img.width / 2 +
      (x - x % 2) < img.data.size := by omega
  have h5 : img.gray_size + (y - y % 2) * img.width / 2 +
      (x - x % 2) + 1 < img.data.size := by omega
  have hcb : img.check_bounds x y = false := by
    simp [NV12Image.check_bounds]
    omega
  have hput : img.put_pixel x y c = some
      ⟨(((((img.data.setD ((y - y % 2) * img.width + (x - x % 2)) c.y).setD
          ((y - y % 2) * img.width + (x - x % 2) + 1) c.y).setD
          ((y - y % 2) * img.width + (x - x % 2) + img.width) c.y).setD
          ((y - y % 2) * img.width + (x - x % 2) + img.width + 1) c.y).setD
          (img.gray_size + (y - y % 2) * img.width / 2 + (x - x % 2)) c.u).setD
          (img.gray_size + (y - y % 2) * img.width / 2 + (x - x % 2) + 1) c.v,
        img.width, img.height, img.gray_size⟩ := by
    simp only [NV12Image.put_pixel, NV12Image.pixel_indices,
      NV12Image.to_zero_or_even, Option.bind_eq_bind,
      hcb, Bool.false_eq_true, if_false]
    rw [writeByte_eq_setD c.y h0]
    simp only [Option.some_bind]
    rw [writeByte_eq_setD c.y (by rw [Array.size_setD]; exact h1)]
    simp only [Option.some_bind]
    rw [writeByte_eq_setD c.y (by rw [Array.size_setD, Array.size_setD]; exact h2)]
    simp only [Option.some_bind]
    rw [writeByte_eq_setD c.y
      (by rw [Array.size_setD, Array.size_setD, Array.size_setD]; exact h3)]
    simp only [Option.some_bind]
    rw [writeByte_eq_setD c.u
      (by rw [Array.size_setD, Array.size_setD, Array.size_setD,
        Array.size_setD]; exact h4)]
    simp only [Option.some_bind]
    rw [writeByte_eq_setD c.v
      (by rw [Array.size_setD, Array.size_setD, Array.size_setD,
        Array.size_setD, Array.size_setD]; exact h5)]
    simp only [Option.some_bind]
  refine ⟨_, hput, rfl, rfl, rfl, ?_, fun i => ?_⟩
  · simp only [Array.size_setD]
  · rw [getElem?_setD_lt _ _ _ (by simp only [Array.size_setD]; exact h5),
      getElem?_setD_lt _ _ _ (by simp only [Array.size_setD]; exact h4),
      getElem?_setD_lt _ _ _ (by simp only [Array.size_setD]; exact h3),
      getElem?_setD_lt _ _ _ (by simp only [Array.size_setD]; exact h2),
      getElem?_setD_lt _ _ _ (by simp only [Array.size_setD]; exact h1),
      getElem?_setD_lt _ _ _ h0]

/-- In-bounds `get_pixel` evaluated from the three byte reads of the snapped
block. -/
lemma NV12Image.get_pixel_eval (img : NV12Image) (x y a b c' : Nat)
    (hx : x < img.width) (hy : y < img.height)
    (ha : img.data[(y - y % 2) * img.width + (x - x % 2)]? = some a)
    (hb : img.data[img.gray_size + (y - y % 2) * img.width / 2 +
      (x - x % 2)]? = some b)
    (hc : img.data[img.gray_size + (y - y % 2) * img.width / 2 +
      (x - x % 2) + 1]? = some c') :
    img.get_pixel x y = some ⟨a, b, c'⟩ := by
  have hcb : img.check_bounds x y = false := by
    simp [NV12Image.check_bounds]
    omega
  simp only [NV12Image.get_pixel, NV12Image.pixel_indices,
    NV12Image.to_zero_or_even, NV12Image.readByte, hcb, Bool.false_eq_true,
    if_false, ha, hb, hc]

/-- In-bounds `get_pixel` on a well-formed surface always succeeds. -/
lemma NV12Image.get_pixel_isSome (img : NV12Image) (x y : Nat)
    (hg : img.gray_size = img.width * img.height)
    (hw : img.width % 2 = 0) (hh : img.height % 2 = 0)
    (hx : x < img.width) (hy : y < img.height)
    (hlen : img.width * img.height * 3 / 2 ≤ img.data.size) :
    ∃ c', img.get_pixel x y = some c' := by
  obtain ⟨hlam, huv1, hluma⟩ := block_indices_lt hw hh hx hy hlen
  have h0 : (y - y % 2) * img.width + (x - x % 2) < img.data.size := by omega
  have h4 : img.gray_size + (y - y % 2) * img.width / 2 +
      (x - x % 2) < img.data.size := by omega
  have h5 : img.gray_size + (y - y % 2) * img.width / 2 +
      (x - x % 2) + 1 < img.data.size := by omega
  exact ⟨_, NV12Image.get_pixel_eval img x y _ _ _ hx hy
    (Array.getElem?_eq_getElem h0) (Array.getElem?_eq_getElem h4)
    (Array.getElem?_eq_getElem h5)⟩

/-- `get_pixel` only depends on the dimensions, the chroma-plane offset and
the three bytes of the snapped block. -/
lemma NV12Image.get_pixel_congr (img img' : NV12Image) (x y : Nat)
    (hW : img'.width = img.width) (hH : img'.height = img.height)
    (hG : img'.gray_size = img.gray_size)
    (h1 : img'.data[(y - y % 2) * img.width + (x - x % 2)]? =
          img.data[(y - y % 2) * img.width + (x - x % 2)]?)
    (h2 : img'.data[img.gray_size + (y - y % 2) * img.width / 2 +
            (x - x % 2)]? =
          img.data[img.gray_size + (y - y % 2) * img.width / 2 +
            (x - x % 2)]?)
    (h3 : img'.data[img.gray_size + (y - y % 2) * img.width / 2 +
            (x - x % 2) + 1]? =
          img.data[img.gray_size + (y - y % 2) * img.width / 2 +
            (x - x % 2) + 1]?) :
    img'.get_pixel x y = img.get_pixel x y := by
  simp only [NV12Image.get_pixel, NV12Image.check_bounds,
    NV12Image.pixel_indices, NV12Image.to_zero_or_even, NV12Image.readByte,
    hW, hH, hG, h1, h2, h3]

/-! ## Claims -/

/-- C7: for every in-bounds coordinate of a surface with even dimensions,
the luma byte of the snapped block lives at `y_even*width + x_even`, and the
block's chroma pair lives at `gray_size + (y_even/2)*width + x_even` and the
following byte, where `gray_size = width*height`.  (That `put_pixel`
additionally writes the three luma neighbours at `+1`, `+width`, `+width+1`
is read off its definition and proved as part of the C6 frame theorem.) -/
theorem C7_addressing_invariant (data : Array Nat) (w h x y : Nat)
    (hw : w % 2 = 0) (hh : h % 2 = 0) (hx : x < w) (hy : y < h) :
    (NV12Image.fromData data w h).pixel_indices (x - x % 2) (y - y % 2) =
      ((y - y % 2) * w + (x - x % 2),
       w * h + (y - y % 2) / 2 * w + (x - x % 2),
       w * h + (y - y % 2) / 2 * w + (x - x % 2) + 1) := by
  have he : (y - y % 2) * w / 2 = (y - y % 2) / 2 * w :=
    even_mul_div_two (by omega)
  simp only [NV12Image.pixel_indices, NV12Image.fromData_width,
    NV12Image.fromData_gray_size, he]

/-- Witness for C7 at `w = h = 2`, `(x, y) = (1, 1)`. -/
theorem C7_addressing_invariant_witness :
    (2 % 2 = 0 ∧ 1 < 2) ∧
    (NV12Image.fromData #[] 2 2).pixel_indices (1 - 1 % 2) (1 - 1 % 2) =
      (0, 4, 5) :=
  ⟨⟨rfl, by decide⟩,
    C7_addressing_invariant #[] 2 2 1 1 rfl rfl (by decide) (by decide)⟩

/-- C8: reading any in-bounds coordinate returns exactly the color stored at
the block's snapped even coordinate — the odd coordinate's own luma byte is
never consulted. -/
theorem C8_read_snaps (img : NV12Image) (x y : Nat)
    (hx : x < img.width) (hy : y < img.height) :
    img.get_pixel x y = img.get_pixel (x - x % 2) (y - y % 2) := by
  have hcb : img.check_bounds x y = false := by
    simp [NV12Image.check_bounds]
    omega
  have hcb' : img.check_bounds (x - x % 2) (y - y % 2) = false := by
    simp [NV12Image.check_bounds]
    omega
  have hx2 : x - x % 2 - (x - x % 2) % 2 = x - x % 2 := by omega
  have hy2 : y - y % 2 - (y - y % 2) % 2 = y - y % 2 := by omega
  simp only [NV12Image.get_pixel, NV12Image.to_zero_or_even, hcb, hcb',
    Bool.false_eq_true, if_false, hx2, hy2]

/-- Witness for C8 at a 2×2 surface and `(x, y) = (1, 1)`. -/
theorem C8_read_snaps_witness :
    (1 < 2 ∧ 1 < 2) ∧
    (NV12Image.fromData (Array.mkArray 6 0) 2 2).get_pixel 1 1 =
      (NV12Image.fromData (Array.mkArray 6 0) 2 2).get_pixel (1 - 1 % 2)
        (1 - 1 % 2) :=
  ⟨⟨by decide, by decide⟩,
    C8_read_snaps (NV12Image.fromData (Array.mkArray 6 0) 2 2) 1 1
      (by decide) (by decide)⟩

/-- C9: blending is a total overwrite — `YUV::blend` replaces the
destination with the source, and both surfaces' `blend_pixel` coincide with
`put_pixel`, so they effect exactly the same buffer mutation. -/
theorem C9_blend_is_overwrite :
    (∀ d s : YUV, YUV.blend d s = s) ∧
    (∀ (img : NV12Image) (x y : Nat) (c : YUV),
      img.blend_pixel x y c = img.put_pixel x y c) ∧
    (∀ (img : NV12Image2) (x y : Nat) (c : YUV),
      img.blend_pixel x y c = img.put_pixel x y c) :=
  ⟨fun _ _ => rfl, fun _ _ _ _ => rfl, fun _ _ _ _ => rfl⟩

/-- C10: `get_pixel_mut` is `todo!()` on both the surface and the view: the
embedded operation is the unconditional panic (`none`) for every coordinate,
in-bounds or not. -/
theorem C10_get_pixel_mut_unimplemented :
    (∀ (img : NV12Image) (x y : Nat), img.get_pixel_mut x y = none) ∧
    (∀ (img : NV12Image2) (x y : Nat), img.get_pixel_mut x y = none) :=
  ⟨fun _ _ _ => rfl, fun _ _ _ => rfl⟩

/-- C3 (code bug): construction performs no length validation.  A buffer of
length 0 with declared dimensions 2×2 (which need `2*2*3/2 = 6` bytes) is
accepted unconditionally — the constructed surface carries the full declared
dimensions — and the failure is deferred to the first access: both
`get_pixel(0,0)` and `put_pixel(0,0)` then abort on an out-of-range buffer
index. -/
theorem C3_no_construction_check :
    NV12Image.fromData #[] 2 2 =
      { data := #[], width := 2, height := 2, gray_size := 4 } ∧
    (NV12Image.fromData #[] 2 2).get_pixel 0 0 = none ∧
    (NV12Image.fromData #[] 2 2).put_pixel 0 0 WHITE = none := by decide

/-- C4 counterexample: the `GREEN` constant is `YUV(0, 0, 0)`, which the
code's own RGB conversion maps to `(0, 134, 0)` — its green channel is 121
away from canonical green `(0, 255, 0)`, far beyond truncation error, so
`GREEN` is not the native-space encoding of the canonical RGB green. -/
theorem C4_green_not_canonical :
    YUV.rgb GREEN = (0, 134, 0) ∧
    rgbClose (YUV.rgb GREEN) (0, 255, 0) = false := by decide

/-- C4 (amended): six of the seven named constants are exact encodings of
their canonical RGB colors — converting them back through the code's RGB
formula lands within truncation error (≤ 2 per channel) of the canonical
color, with black and white exact — but `GREEN = YUV(0,0,0)` converts to
`(0, 134, 0)`, not close to canonical green. -/
theorem C4_constants_roundtrip :
    YUV.rgb BLACK = (0, 0, 0) ∧
    YUV.rgb WHITE = (255, 255, 255) ∧
    rgbClose (YUV.rgb RED) (255, 0, 0) = true ∧
    rgbClose (YUV.rgb BLUE) (0, 0, 255) = true ∧
    rgbClose (YUV.rgb CYAN) (0, 255, 255) = true ∧
    rgbClose (YUV.rgb YELLOW) (255, 255, 0) = true ∧
    YUV.rgb GREEN = (0, 134, 0) ∧
    rgbClose (YUV.rgb GREEN) (0, 255, 0) = false := by decide

/-- C1: after an in-bounds `put_pixel(x, y, c)` on a surface with even
dimensions and a full-size buffer, `get_pixel` at each of the four
coordinates of the 2×2 block containing `(x, y)` returns a color equal to
`c` in the luma channel and in both chroma channels. -/
theorem C1_block_uniformity (data : Array Nat) (w h x y dx dy : Nat)
    (c : YUV) (hw : w % 2 = 0) (hh : h % 2 = 0) (hx : x < w) (hy : y < h)
    (hlen : w * h * 3 / 2 ≤ data.size) (hdx : dx < 2) (hdy : dy < 2) :
    ∃ img', (NV12Image.fromData data w h).put_pixel x y c = some img' ∧
      img'.get_pixel (x - x % 2 + dx) (y - y % 2 + dy) = some c := by
  obtain ⟨img', hput, hW, hH, hG, hS, hchar⟩ :=
    NV12Image.put_pixel_spec (NV12Image.fromData data w h) x y c rfl hw hh
      hx hy hlen
  simp only [NV12Image.fromData_width, NV12Image.fromData_height,
    NV12Image.fromData_gray_size, NV12Image.fromData_data]
    at hW hH hG hS hchar
  refine ⟨img', hput, ?_⟩
  have hxe : x - x % 2 + dx - (x - x % 2 + dx) % 2 = x - x % 2 := by omega
  have hye : y - y % 2 + dy - (y - y % 2 + dy) % 2 = y - y % 2 := by omega
  have hi0 : (y - y % 2) * w + (x - x % 2) < w * h :=
    row_major_lt (by omega) (by omega)
  have ha : img'.data[(y - y % 2) * w + (x - x % 2)]? = some c.y := by
    rw [hchar]
    rw [if_neg (by omega), if_neg (by omega), if_neg (by omega),
      if_neg (by omega), if_neg (by omega), if_pos rfl]
  have hb : img'.data[w * h + (y - y % 2) * w / 2 + (x - x % 2)]? =
      some c.u := by
    rw [hchar]
    rw [if_neg (by omega), if_pos rfl]
  have hc : img'.data[w * h + (y - y % 2) * w / 2 + (x - x % 2) + 1]? =
      some c.v := by
    rw [hchar]
    rw [if_pos rfl]
  have hx' : x - x % 2 + dx < img'.width := by rw [hW]; omega
  have hy' : y - y % 2 + dy < img'.height := by rw [hH]; omega
  have ha' : img'.data[(y - y % 2 + dy - (y - y % 2 + dy) % 2) * img'.width +
      (x - x % 2 + dx - (x - x % 2 + dx) % 2)]? = some c.y := by
    rw [hW, hxe, hye]; exact ha
  have hb' : img'.data[img'.gray_size +
      (y - y % 2 + dy - (y - y % 2 + dy) % 2) * img'.width / 2 +
      (x - x % 2 + dx - (x - x % 2 + dx) % 2)]? = some c.u := by
    rw [hG, hW, hxe, hye]; exact hb
  have hc' : img'.data[img'.gray_size +
      (y - y % 2 + dy - (y - y % 2 + dy) % 2) * img'.width / 2 +
      (x - x % 2 + dx - (x - x % 2 + dx) % 2) + 1]? = some c.v := by
    rw [hG, hW, hxe, hye]; exact hc
  exact NV12Image.get_pixel_eval img' _ _ _ _ _ hx' hy' ha' hb' hc'

/-- Witness for C1 on a 2×2 surface, writing at `(1, 1)` and reading back at
the block corner `(0 + 1, 0 + 1)`. -/
theorem C1_block_uniformity_witness :
    (2 % 2 = 0 ∧ 1 < 2 ∧ 2 * 2 * 3 / 2 ≤ (Array.mkArray 6 0).size ∧
      1 < 2) ∧
    ∃ img',
      (NV12Image.fromData (Array.mkArray 6 0) 2 2).put_pixel 1 1
        ⟨9, 8, 7⟩ = some img' ∧
      img'.get_pixel (1 - 1 % 2 + 1) (1 - 1 % 2 + 1) = some ⟨9, 8, 7⟩ :=
  ⟨⟨rfl, by decide, by decide, by decide⟩,
    C1_block_uniformity (Array.mkArray 6 0) 2 2 1 1 1 1 ⟨9, 8, 7⟩ rfl rfl
      (by decide) (by decide) (by decide) (by decide) (by decide)⟩

/-- C2: the half-resolution view reports halved dimensions and bounds,
reads exactly what the surface reads at the doubled coordinate (with
in-bounds reads succeeding), and its `put_pixel` / `blend_pixel` leave the
backing surface in exactly the state `surface.put_pixel(2x, 2y, c)`
produces. -/
theorem C2_half_resolution_view (img : NV12Image2) (x y : Nat) (c : YUV)
    (hg : img.base.gray_size = img.base.width * img.base.height)
    (hw : img.base.width % 2 = 0) (hh : img.base.height % 2 = 0)
    (hx : x < img.base.width / 2) (hy : y < img.base.height / 2)
    (hlen : img.base.width * img.base.height * 3 / 2 ≤
      img.base.data.size) :
    img.dimensions = (img.base.width / 2, img.base.height / 2) ∧
    img.bounds = (0, 0, img.base.width / 2, img.base.height / 2) ∧
    img.get_pixel x y = img.base.get_pixel (2 * x) (2 * y) ∧
    (∃ c', img.get_pixel x y = some c') ∧
    img.put_pixel x y c =
      (img.base.put_pixel (2 * x) (2 * y) c).map (fun b => ⟨b⟩) ∧
    img.blend_pixel x y c =
      (img.base.put_pixel (2 * x) (2 * y) c).map (fun b => ⟨b⟩) := by
  have h2x : 2 * x = x * 2 := Nat.mul_comm 2 x
  have h2y : 2 * y = y * 2 := Nat.mul_comm 2 y
  refine ⟨rfl, rfl, by simp only [NV12Image2.get_pixel, h2x, h2y], ?_,
    by simp only [NV12Image2.put_pixel, h2x, h2y],
    by simp only [NV12Image2.blend_pixel, NV12Image2.put_pixel, h2x, h2y]⟩
  obtain ⟨c', hc'⟩ := NV12Image.get_pixel_isSome img.base (x * 2) (y * 2)
    hg hw hh (by omega) (by omega) hlen
  exact ⟨c', hc'⟩

/-- Witness for C2 on a 4×4 surface viewed at half resolution, at
`(x, y) = (1, 1)`. -/
theorem C2_half_resolution_view_witness :
    (4 % 2 = 0 ∧ 1 < 4 / 2 ∧
      4 * 4 * 3 / 2 ≤ (Array.mkArray 24 0).size) ∧
    ((NV12Image2.mk (NV12Image.fromData (Array.mkArray 24 0) 4 4)).dimensions
        = (4 / 2, 4 / 2) ∧
      (NV12Image2.mk (NV12Image.fromData (Array.mkArray 24 0) 4 4)).bounds
        = (0, 0, 4 / 2, 4 / 2) ∧
      (NV12Image2.mk
          (NV12Image.fromData (Array.mkArray 24 0) 4 4)).get_pixel 1 1 =
        (NV12Image.fromData (Array.mkArray 24 0) 4 4).get_pixel (2 * 1)
          (2 * 1) ∧
      (∃ c', (NV12Image2.mk
          (NV12Image.fromData (Array.mkArray 24 0) 4 4)).get_pixel 1 1 =
        some c') ∧
      (NV12Image2.mk
          (NV12Image.fromData (Array.mkArray 24 0) 4 4)).put_pixel 1 1 RED =
        ((NV12Image.fromData (Array.mkArray 24 0) 4 4).put_pixel (2 * 1)
          (2 * 1) RED).map (fun b => ⟨b⟩) ∧
      (NV12Image2.mk
          (NV12Image.fromData (Array.mkArray 24 0) 4 4)).blend_pixel 1 1
          RED =
        ((NV12Image.fromData (Array.mkArray 24 0) 4 4).put_pixel (2 * 1)
          (2 * 1) RED).map (fun b => ⟨b⟩)) :=
  ⟨⟨rfl, by decide, by decide⟩,
    C2_half_resolution_view
      (NV12Image2.mk (NV12Image.fromData (Array.mkArray 24 0) 4 4)) 1 1 RED
      rfl rfl rfl (by decide) (by decide) (by decide)⟩

/-- C5: on a surface with even, positive dimensions and a full-size buffer,
`get_pixel` and `put_pixel` succeed at `(width-1, height-1)`, while at any
coordinate with `x ≥ width` or `y ≥ height` both fail (`none`, the embedded
panic) — the coordinate is never clamped or wrapped, and a failing
`put_pixel` produces no mutated surface at all. -/
theorem C5_bounds_checking (data : Array Nat) (w h x y : Nat) (c : YUV)
    (hw : w % 2 = 0) (hh : h % 2 = 0) (hw0 : 0 < w) (hh0 : 0 < h)
    (hlen : w * h * 3 / 2 ≤ data.size) (hoob : w ≤ x ∨ h ≤ y) :
    (∃ c', (NV12Image.fromData data w h).get_pixel (w - 1) (h - 1) =
      some c') ∧
    (∃ img', (NV12Image.fromData data w h).put_pixel (w - 1) (h - 1) c =
      some img') ∧
    (NV12Image.fromData data w h).get_pixel x y = none ∧
    (NV12Image.fromData data w h).put_pixel x y c = none := by
  have hcb : (NV12Image.fromData data w h).check_bounds x y = true := by
    simp [NV12Image.check_bounds]
    omega
  refine ⟨?_, ?_, ?_, ?_⟩
  · exact NV12Image.get_pixel_isSome _ _ _ rfl hw hh (by simp; omega)
      (by simp; omega) hlen
  · obtain ⟨img', hput, -⟩ := NV12Image.put_pixel_spec
      (NV12Image.fromData data w h) (w - 1) (h - 1) c rfl hw hh
      (by simp; omega) (by simp; omega) hlen
    exact ⟨img', hput⟩
  · simp [NV12Image.get_pixel, hcb]
  · simp [NV12Image.put_pixel, hcb]

/-- Witness for C5 on a 2×2 surface with the out-of-bounds probe `(2, 0)`. -/
theorem C5_bounds_checking_witness :
    (2 % 2 = 0 ∧ 0 < 2 ∧ 2 * 2 * 3 / 2 ≤ (Array.mkArray 6 0).size ∧
      (2 ≤ 2 ∨ 2 ≤ 0)) ∧
    ((∃ c', (NV12Image.fromData (Array.mkArray 6 0) 2 2).get_pixel (2 - 1)
        (2 - 1) = some c') ∧
      (∃ img', (NV12Image.fromData (Array.mkArray 6 0) 2 2).put_pixel (2 - 1)
        (2 - 1) WHITE = some img') ∧
      (NV12Image.fromData (Array.mkArray 6 0) 2 2).get_pixel 2 0 = none ∧
      (NV12Image.fromData (Array.mkArray 6 0) 2 2).put_pixel 2 0 WHITE =
        none) :=
  ⟨⟨rfl, by decide, by decide, Or.inl (by decide)⟩,
    C5_bounds_checking (Array.mkArray 6 0) 2 2 2 0 WHITE rfl rfl
      (by decide) (by decide) (by decide) (Or.inl (by decide))⟩

/-- C6: an in-bounds `put_pixel(x, y, c)` changes at most the six bytes of
the 2×2 block containing `(x, y)` — its four luma bytes and its shared
chroma pair; any other byte `i` of the buffer is unchanged, and a subsequent
`get_pixel` at any in-bounds coordinate `(x', y')` belonging to a different
2×2 block returns exactly what it returned before the write. -/
theorem C6_frame_effect (data : Array Nat) (w h x y i x' y' : Nat) (c : YUV)
    (hw : w % 2 = 0) (hh : h % 2 = 0) (hx : x < w) (hy : y < h)
    (hlen : w * h * 3 / 2 ≤ data.size)
    (hi : ¬(i = (y - y % 2) * w + (x - x % 2) ∨
            i = (y - y % 2) * w + (x - x % 2) + 1 ∨
            i = (y - y % 2) * w + (x - x % 2) + w ∨
            i = (y - y % 2) * w + (x - x % 2) + w + 1 ∨
            i = w * h + (y - y % 2) * w / 2 + (x - x % 2) ∨
            i = w * h + (y - y % 2) * w / 2 + (x - x % 2) + 1))
    (hx' : x' < w) (hy' : y' < h)
    (hblock : ¬(x' - x' % 2 = x - x % 2 ∧ y' - y' % 2 = y - y % 2)) :
    ∃ img', (NV12Image.fromData data w h).put_pixel x y c = some img' ∧
      img'.data[i]? = data[i]? ∧
      img'.get_pixel x' y' = (NV12Image.fromData data w h).get_pixel x' y' :=
    by
  obtain ⟨img', hput, hW, hH, hG, hS, hchar⟩ :=
    NV12Image.put_pixel_spec (NV12Image.fromData data w h) x y c rfl hw hh
      hx hy hlen
  simp only [NV12Image.fromData_width, NV12Image.fromData_height,
    NV12Image.fromData_gray_size, NV12Image.fromData_data]
    at hW hH hG hS hchar
  refine ⟨img', hput, ?_, ?_⟩
  · rw [hchar]
    rw [if_neg (by omega), if_neg (by omega), if_neg (by omega),
      if_neg (by omega), if_neg (by omega), if_neg (by omega)]
  have hi0 : (y - y % 2) * w + (x - x % 2) < w * h :=
    row_major_lt (by omega) (by omega)
  have hi0w : (y - y % 2 + 1) * w + (x - x % 2 + 1) < w * h :=
    row_major_lt (by omega) (by omega)
  have hi0w' : (y - y % 2 + 1) * w = (y - y % 2) * w + w := by ring
  have hA : (y' - y' % 2) * w + (x' - x' % 2) < w * h :=
    row_major_lt (by omega) (by omega)
  have hne0 : (y' - y' % 2) * w + (x' - x' % 2) ≠
      (y - y % 2) * w + (x - x % 2) := by
    intro hEq
    obtain ⟨h1, h2⟩ := row_major_inj (by omega) (by omega) hEq
    exact hblock ⟨h2, h1⟩
  have hne1 : (y' - y' % 2) * w + (x' - x' % 2) ≠
      (y - y % 2) * w + (x - x % 2) + 1 := by
    intro hEq
    have hEq' : (y' - y' % 2) * w + (x' - x' % 2) =
        (y - y % 2) * w + (x - x % 2 + 1) := by omega
    obtain ⟨h1, h2⟩ := row_major_inj (by omega) (by omega) hEq'
    omega
  have hne2 : (y' - y' % 2) * w + (x' - x' % 2) ≠
      (y - y % 2) * w + (x - x % 2) + w := by
    intro hEq
    have hEq' : (y' - y' % 2) * w + (x' - x' % 2) =
        (y - y % 2 + 1) * w + (x - x % 2) := by omega
    obtain ⟨h1, h2⟩ := row_major_inj (by omega) (by omega) hEq'
    omega
  have hne3 : (y' - y' % 2) * w + (x' - x' % 2) ≠
      (y - y % 2) * w + (x - x % 2) + w + 1 := by
    intro hEq
    have hEq' : (y' - y' % 2) * w + (x' - x' % 2) =
        (y - y % 2 + 1) * w + (x - x % 2 + 1) := by omega
    obtain ⟨h1, h2⟩ := row_major_inj (by omega) (by omega) hEq'
    omega
  have hceq' : (y' - y' % 2) * w / 2 = (y' - y' % 2) / 2 * w :=
    even_mul_div_two (by omega)
  have hceq : (y - y % 2) * w / 2 = (y - y % 2) / 2 * w :=
    even_mul_div_two (by omega)
  have hneU : w * h + (y' - y' % 2) * w / 2 + (x' - x' % 2) ≠
      w * h + (y - y % 2) * w / 2 + (x - x % 2) := by
    intro hEq
    have hEq' : (y' - y' % 2) / 2 * w + (x' - x' % 2) =
        (y - y % 2) / 2 * w + (x - x % 2) := by omega
    obtain ⟨h1, h2⟩ := row_major_inj (by omega) (by omega) hEq'
    exact hblock ⟨h2, by omega⟩
  have hneU1 : w * h + (y' - y' % 2) * w / 2 + (x' - x' % 2) ≠
      w * h + (y - y % 2) * w / 2 + (x - x % 2) + 1 := by
    intro hEq
    have hEq' : (y' - y' % 2) / 2 * w + (x' - x' % 2) =
        (y - y % 2) / 2 * w + (x - x % 2 + 1) := by omega
    obtain ⟨h1, h2⟩ := row_major_inj (by omega) (by omega) hEq'
    omega
  have hneU2 : w * h + (y' - y' % 2) * w / 2 + (x' - x' % 2) + 1 ≠
      w * h + (y - y % 2) * w / 2 + (x - x % 2) := by
    intro hEq
    have hEq' : (y - y % 2) / 2 * w + (x - x % 2) =
        (y' - y' % 2) / 2 * w + (x' - x' % 2 + 1) := by omega
    obtain ⟨h1, h2⟩ := row_major_inj (by omega) (by omega) hEq'
    omega
  have hr1 : img'.data[(y' - y' % 2) * w + (x' - x' % 2)]? =
      data[(y' - y' % 2) * w + (x' - x' % 2)]? := by
    rw [hchar]
    rw [if_neg (by omega), if_neg (by omega), if_neg (by omega),
      if_neg (by omega), if_neg (by omega), if_neg (by omega)]
  have hr2 : img'.data[w * h + (y' - y' % 2) * w / 2 + (x' - x' % 2)]? =
      data[w * h + (y' - y' % 2) * w / 2 + (x' - x' % 2)]? := by
    rw [hchar]
    rw [if_neg (by omega), if_neg (by omega), if_neg (by omega),
      if_neg (by omega), if_neg (by omega), if_neg (by omega)]
  have hr3 : img'.data[w * h + (y' - y' % 2) * w / 2 + (x' - x' % 2) + 1]? =
      data[w * h + (y' - y' % 2) * w / 2 + (x' - x' % 2) + 1]? := by
    rw [hchar]
    rw [if_neg (by omega), if_neg (by omega), if_neg (by omega),
      if_neg (by omega), if_neg (by omega), if_neg (by omega)]
  exact NV12Image.get_pixel_congr (NV12Image.fromData data w h) img' x' y'
    hW hH hG hr1 hr2 hr3

/-- Witness for C6 on a 4×2 surface: write at `(0, 0)`, check byte 2 and the
neighbouring block at `(2, 0)`. -/
theorem C6_frame_effect_witness :
    (4 % 2 = 0 ∧ 2 % 2 = 0 ∧ 0 < 4 ∧ 0 < 2 ∧
      4 * 2 * 3 / 2 ≤ (Array.mkArray 12 0).size ∧
      ¬(2 = 0 ∨ 2 = 1 ∨ 2 = 4 ∨ 2 = 5 ∨ 2 = 8 ∨ 2 = 9) ∧ 2 < 4 ∧
      ¬(2 - 2 % 2 = 0 - 0 % 2 ∧ 0 - 0 % 2 = 0 - 0 % 2)) ∧
    ∃ img', (NV12Image.fromData (Array.mkArray 12 0) 4 2).put_pixel 0 0
        ⟨9, 8, 7⟩ = some img' ∧
      img'.data[2]? = (Array.mkArray 12 0)[2]? ∧
      img'.get_pixel 2 0 =
        (NV12Image.fromData (Array.mkArray 12 0) 4 2).get_pixel 2 0 :=
  ⟨⟨rfl, rfl, by decide, by decide, by decide, by decide, by decide,
      by decide⟩,
    C6_frame_effect (Array.mkArray 12 0) 4 2 0 0 2 2 0 ⟨9, 8, 7⟩ rfl rfl
      (by decide) (by decide) (by decide) (by decide) (by decide)
      (by decide) (by decide)⟩
